import Mathlib

/-!
Verification development for the roomnl-stats forecasting pipeline
(`src/pipeline/roomnl_model.py`, `src/pipeline/generate.py`).

Modelling conventions (shallow embedding):
* Dates are integers (days since 1970-01-01), matching polars' `Date`
  physical representation; the calendar month of a day is computed with the
  standard civil-from-days algorithm (`monthOfDay`), which is what
  `pl.col(..).dt.month()` returns.
* Numeric columns are modelled as exact rationals `ℚ` wherever the claims
  are about arithmetic relations (ordering of bounds, sums, means); float
  rounding is abstracted away.  Where a claim is specifically about
  IEEE non-finiteness (NaN / infinity propagation), values are modelled by
  `RFloat`, a rational-valued float model with `inf`, `ninf` and `nan` and
  IEEE-style division (signed zeros are conflated; none of the claims
  distinguish them).
* The scikit-learn `GaussianProcessRegressor` together with the fitted
  `StandardScaler` and the transcendental feature map is external-library
  code, not code of this repository; a fitted model is therefore embedded
  as an abstract per-date prediction function `gp : ℤ → ℚ × ℚ` returning
  the (deseasonalized) predictive mean and standard deviation for a date.
  Likewise `math.erf` is an abstract `erf : ℚ → ℚ`, constrained in the
  theorems only by its mathematical range `[-1, 1]`, and the float value of
  `math.sqrt(2)` is an abstract rational constant.
* `pl.date_range(start, end, "1d", eager=True)` yields the inclusive
  ascending day list, and the empty list when `end < start`.
* The literal `1.96` is modelled by the rational `49/25` and `2.0 * 1.96`
  by `98/25`; the claims under study are insensitive to the float-versus-
  decimal difference of the constant.
-/

set_option autoImplicit false

namespace RoomnlStats

/-- A float value: either a finite (rational) value, `inf`, `-inf`, or NaN.
Used where a claim is about non-finiteness propagation. -/
inductive RFloat where
  | fin : ℚ → RFloat
  | inf : RFloat
  | ninf : RFloat
  | nan : RFloat
deriving DecidableEq, Repr

/-- `np.isfinite`. -/
def RFloat.isFinite : RFloat → Bool
  | .fin _ => true
  | _ => false

/-- IEEE-style division on the float model (signed zeros conflated):
a nonzero finite value divided by zero is a signed infinity, `0/0` is NaN,
NaN propagates. -/
def RFloat.div : RFloat → RFloat → RFloat
  | .nan, _ => .nan
  | _, .nan => .nan
  | .fin a, .fin b =>
      if b = 0 then (if a = 0 then .nan else if 0 < a then .inf else .ninf)
      else .fin (a / b)
  | .fin _, .inf => .fin 0
  | .fin _, .ninf => .fin 0
  | .inf, .fin b => if 0 ≤ b then .inf else .ninf
  | .ninf, .fin b => if 0 ≤ b then .ninf else .inf
  | .inf, .inf => .nan
  | .inf, .ninf => .nan
  | .ninf, .inf => .nan
  | .ninf, .ninf => .nan

/-- `np.clip(x, 0.0, 1.0)`: clamps finite values into `[0,1]`, sends the
infinities to the nearest bound, and propagates NaN (as numpy does). -/
def RFloat.clip01 : RFloat → RFloat
  | .fin q => .fin (max 0 (min 1 q))
  | .inf => .fin 1
  | .ninf => .fin 0
  | .nan => .nan

/-- Multiplication of a float value by a rational scalar (only used with the
positive scalar `100`); NaN propagates. -/
def RFloat.mulQ : RFloat → ℚ → RFloat
  | .fin a, c => .fin (a * c)
  | .inf, c => if c = 0 then .nan else if 0 < c then .inf else .ninf
  | .ninf, c => if c = 0 then .nan else if 0 < c then .ninf else .inf
  | .nan, _ => .nan

/-- Civil calendar from a day count (days since 1970-01-01): returns
`(year, month, day)`.  Standard days-from-epoch conversion, mirroring what
polars' `dt.month()` computes on a `Date` column. -/
def civilFromDays (z : ℤ) : ℤ × ℕ × ℕ :=
  let zd := z + 719468
  let era := Int.fdiv zd 146097
  let doe := (zd - era * 146097).toNat
  let yoe := (doe - doe / 1460 + doe / 36524 - doe / 146096) / 365
  let doy := doe - (365 * yoe + yoe / 4 - yoe / 100)
  let mp := (5 * doy + 2) / 153
  let dy := doy - (153 * mp + 2) / 5 + 1
  let m := if mp < 10 then mp + 3 else mp - 9
  ((yoe : ℤ) + era * 400 + (if m ≤ 2 then 1 else 0), m, dy)

/-- Calendar month (1-12) of a day count: `pl.col(..).dt.month()`. -/
def monthOfDay (z : ℤ) : ℕ :=
  (civilFromDays z).2.1

/-- `pl.date_range(start, stop, interval="1d", eager=True)`: the inclusive
ascending list of days; empty when `stop < start`
(`roomnl_model.py` line 266). -/
def dateRange (start stop : ℤ) : List ℤ :=
  (List.range (stop + 1 - start).toNat).map fun i : ℕ => start + (i : ℤ)

/-- Multiplier a calendar month receives from a monthly-multiplier table:
the left join on `month` followed by `fill_null(1.0)`
(`roomnl_model.py` lines 226-228 and 286-291).  The table is an association
list `(month, month_multiplier)`; `List.lookup` returns the first match,
matching a join against a table keyed by month. -/
def monthMultiplier (table : List (ℕ × ℚ)) (m : ℕ) : ℚ :=
  match table.lookup m with
  | some v => v
  | none => 1

/-- The multiplier actually applied to a date inside `predict_daily`:
`1` when no table is passed, otherwise the joined-and-filled value of the
date's month. -/
def appliedMult (month_mult : Option (List (ℕ × ℚ))) (d : ℤ) : ℚ :=
  match month_mult with
  | none => 1
  | some table => monthMultiplier table (monthOfDay d)

/-- One output row of `predict_daily`: `{contract_date, pred_mean, pred_lo,
pred_hi}`. -/
structure PredictionRow where
  contract_date : ℤ
  pred_mean : ℚ
  pred_lo : ℚ
  pred_hi : ℚ
deriving DecidableEq, Repr

/-- The inner `prediction` helper of `predict_daily` (lines 271-279):
`pred_lo = max(mean - 1.96*std, 0.0)`, `pred_hi = mean + 1.96*std`. -/
def predictionRowOf (d : ℤ) (mean std : ℚ) : PredictionRow :=
  { contract_date := d
    pred_mean := mean
    pred_lo := max (mean - 49/25 * std) 0
    pred_hi := mean + 49/25 * std }

/-- `predict_daily` (lines 255-297): one row per day of the inclusive range;
with a multiplier table, the day's (joined, null-filled) month multiplier is
reapplied multiplicatively to both mean and std.  The fitted
GP-plus-scaler-plus-features pipeline is the abstract `gp`.  (The source's
`mm[~np.isfinite(mm)] = 1.0` clamp is the identity in this exact-rational
embedding; the `raise ValueError` arm of the `match` is unreachable since
`gp.predict(x, return_std=True)` always returns a pair.) -/
def predict_daily (gp : ℤ → ℚ × ℚ) (start stop : ℤ)
    (month_mult : Option (List (ℕ × ℚ))) : List PredictionRow :=
  (dateRange start stop).map fun d =>
    let p := gp d
    match month_mult with
    | none => predictionRowOf d p.1 p.2
    | some table =>
        let mm := monthMultiplier table (monthOfDay d)
        predictionRowOf d (p.1 * mm) (p.2 * mm)

/-- Fit-time multiplier column (lines 224-230): left join of the weekly
dates' months against the multiplier table, then `fill_null(1.0)`.  Table
values are floats (`RFloat`) because claim C2 is about non-finiteness. -/
def fitMultipliers (table : List (ℕ × RFloat)) (months : List ℕ) : List RFloat :=
  months.map fun m => (table.lookup m).getD (RFloat.fin 1)

/-- The clamp `mm[~np.isfinite(mm)] = 1.0` (line 231): non-finite
multiplier entries are replaced by `1.0`. -/
def clampNonFinite (mm : List RFloat) : List RFloat :=
  mm.map fun v => if v.isFinite then v else RFloat.fin 1

/-- The deseasonalization `y = y / mm` of `fit_gp_with_calendar`
(lines 224-232), including the clamp of non-finite multipliers. -/
def deseasonalize (y mm : List RFloat) : List RFloat :=
  List.zipWith RFloat.div y (clampNonFinite mm)

/-- The complete month scaffold `np.arange(1, 13)` (line 163). -/
def scaffoldMonths : List ℕ :=
  (List.range 12).map (· + 1)

/-- Values of the input months that survive the deduplicate-and-join of
`trends_monthly_multiplier` (lines 157-164): one value per scaffold month
present in the input (first occurrence kept; polars' `unique` keeps an
unspecified duplicate).  `mu`, the mean the source computes on the joined
column (nulls ignored), is the mean of this list. -/
def providedValues (table : List (ℕ × ℚ)) : List ℚ :=
  scaffoldMonths.filterMap fun m => table.lookup m

/-- The null-fill of the joined column (lines 166-167): each scaffold month
takes its provided value, or `mu` when absent. -/
def monthScaffoldFill (table : List (ℕ × ℚ)) (mu : ℚ) : List ℚ :=
  scaffoldMonths.map fun m => (table.lookup m).getD mu

/-- Circular smoothing (lines 171-173): each of the 12 values becomes the
mean of the `2*radius+1` values centered on it, indices wrapping mod 12. -/
def smoothCirc (vals : List ℚ) (radius : ℕ) : List ℚ :=
  (List.range 12).map fun i : ℕ =>
    (((List.range (2 * radius + 1)).map fun t : ℕ =>
        vals.getD (((((i : ℤ) + (t : ℤ) - (radius : ℤ)) % 12)).toNat) 0).sum)
      / (2 * radius + 1)

/-- Normalization `vals = vals / vals.mean()` (line 175): divide each of
the 12 values by their mean. -/
def normalizeVals (vals : List ℚ) : List ℚ :=
  vals.map fun v => v / (vals.sum / 12)

/-- `trends_monthly_multiplier` (lines 145-180).  Returns `none` exactly
when no input month lies in 1-12: there `mu` is polars' `None` and the
source's `float(None)` raises a `TypeError`.  `strength` is modelled for
integer exponents (the source's float power with a non-integer exponent is
transcendental); normalization divides by the mean of the 12 values
(rational division by a zero mean yields 0 here, where the source produces
non-finite floats — the theorems about the result's mean therefore carry a
nonzero-mean hypothesis).  A negative `smooth_radius` is skipped by the
source's `if smooth_radius > 0` guard, so radius is modelled as `ℕ`. -/
def trends_monthly_multiplier (table : List (ℕ × ℚ)) (strength : ℤ)
    (smooth_radius : ℕ) : Option (List (ℕ × ℚ)) :=
  if (providedValues table).length = 0 then none
  else
    let mu := (providedValues table).sum / ((providedValues table).length : ℚ)
    let vals0 := monthScaffoldFill table mu
    let vals1 := if 0 < smooth_radius then smoothCirc vals0 smooth_radius else vals0
    let vals2 := normalizeVals vals1
    let vals3 := if strength ≠ 1 then vals2.map (fun v => v ^ strength) else vals2
    some (scaffoldMonths.zip vals3)

/-- One row of the observed table passed to `fill_missing_with_gp`
(`registration_time` may be null). -/
structure ObservedRow where
  contract_date : ℤ
  registration_time : Option ℚ
deriving DecidableEq, Repr

/-- One output row of `fill_missing_with_gp`. -/
structure FilledRow where
  contract_date : ℤ
  pred_mean : ℚ
  pred_lo : ℚ
  pred_hi : ℚ
  registration_time : Option ℚ
  registration_time_filled : ℚ
  filled : Bool
deriving DecidableEq, Repr

/-- The observed value the left join of `fill_missing_with_gp` attaches to a
date: the `registration_time` of the observed row with that date, null when
the row is missing or its value is null.  (The observed table is keyed by
date, so the join is a first-match lookup.) -/
def observedValue (df_obs : List ObservedRow) (d : ℤ) : Option ℚ :=
  (df_obs.find? fun o => o.contract_date == d).bind fun o => o.registration_time

/-- Per-row effect of the join-and-fill of `fill_missing_with_gp`
(lines 311-318): `registration_time_filled` is the observed value when
non-null (`pl.when(...is_not_null()).then(...)`), otherwise `pred_mean`;
`filled` marks the null case; the prediction columns pass through. -/
def fillRow (df_obs : List ObservedRow) (p : PredictionRow) : FilledRow :=
  let obsVal := observedValue df_obs p.contract_date
  { contract_date := p.contract_date
    pred_mean := p.pred_mean
    pred_lo := p.pred_lo
    pred_hi := p.pred_hi
    registration_time := obsVal
    registration_time_filled := obsVal.getD p.pred_mean
    filled := obsVal.isNone }

/-- `fill_missing_with_gp` (lines 300-318): left-join observations onto all
dates of the prediction table and fill. -/
def fill_missing_with_gp (df_obs : List ObservedRow) (df_pred : List PredictionRow) :
    List FilledRow :=
  df_pred.map (fillRow df_obs)

/-- The `direction` flag of `add_prob_good_enough`. -/
inductive Direction where
  | at_least : Direction
  | at_most : Direction
deriving DecidableEq, Repr

/-- One input row of `add_prob_good_enough` (finite prediction values). -/
structure ScoreInputRow where
  contract_date : ℤ
  pred_mean : ℚ
  pred_lo : ℚ
  pred_hi : ℚ
deriving DecidableEq, Repr

/-- One output row of `add_prob_good_enough`: the input columns plus
`my_time`, `prob_good_enough` and `ci_pct`.  `ci_pct` is an `RFloat`
because the source's `(m - lo) / (hi - lo)` can be non-finite. -/
structure ScoredRow where
  contract_date : ℤ
  pred_mean : ℚ
  pred_lo : ℚ
  pred_hi : ℚ
  my_time : ℚ
  prob_good_enough : ℚ
  ci_pct : RFloat
deriving DecidableEq, Repr

/-- Per-row body of `add_prob_good_enough` (lines 336-364):
`sigma = max((hi-lo)/(2*1.96), 1e-9)`, `z = (m-mu)/sigma`,
`cdf = 0.5*(1+erf(z/sqrt(2)))`, probability by direction, and
`ci_pct = clip((m-lo)/(hi-lo), 0, 1) * 100` under numpy float semantics
(`np.errstate` only silences the divide/invalid warnings; `np.clip`
propagates the NaN of `0/0`).  `erf` and the float value of `sqrt(2)` are
abstract. -/
def scoreRow (erf : ℚ → ℚ) (sqrt2 : ℚ) (direction : Direction)
    (my_time_fn : ℤ → ℚ) (r : ScoreInputRow) : ScoredRow :=
  let m := my_time_fn r.contract_date
  let sigma := max ((r.pred_hi - r.pred_lo) / (98/25)) (1/1000000000)
  let z := (m - r.pred_mean) / sigma
  let cdf := (1 + erf (z / sqrt2)) / 2
  let prob := match direction with
    | .at_least => cdf
    | .at_most => 1 - cdf
  let ci_pos := RFloat.clip01
    (RFloat.div (RFloat.fin (m - r.pred_lo)) (RFloat.fin (r.pred_hi - r.pred_lo)))
  { contract_date := r.contract_date
    pred_mean := r.pred_mean
    pred_lo := r.pred_lo
    pred_hi := r.pred_hi
    my_time := m
    prob_good_enough := prob * 100
    ci_pct := ci_pos.mulQ 100 }

/-- `add_prob_good_enough` (lines 321-365): score every prediction row. -/
def add_prob_good_enough (erf : ℚ → ℚ) (sqrt2 : ℚ) (direction : Direction)
    (my_time_fn : ℤ → ℚ) (df_pred : List ScoreInputRow) : List ScoredRow :=
  df_pred.map (scoreRow erf sqrt2 direction my_time_fn)

/-- One row of a segment's data in `generate.py` (both columns nullable
before `drop_nulls`). -/
structure SegmentRow where
  contract_date : Option ℤ
  registration_time : Option ℚ
deriving DecidableEq, Repr

/-- `df.select("contract_date", "registration_time").drop_nulls()`
(`generate.py` line 82): keep rows where both columns are non-null. -/
def dropNullRows (df : List SegmentRow) : List (ℤ × ℚ) :=
  df.filterMap fun r =>
    match r.contract_date, r.registration_time with
    | some d, some v => some (d, v)
    | _, _ => none

/-- `MIN_ROWS_FOR_GP` (`generate.py` line 25). -/
def MIN_ROWS_FOR_GP : ℕ := 20

/-- `_fit_and_predict` (`generate.py` lines 75-108), per-segment: drop null
rows; below the 20-row threshold return the empty prediction list; a fit
failure (`try/except` around `fit_gp_with_calendar`) also returns the empty
list; otherwise predict.  Fitting is the abstract `fit` (it may fail),
prediction the abstract `predictSeg`; the `Except` codomain records that no
error escapes to the caller. -/
def fit_and_predict {Model : Type} (fit : List (ℤ × ℚ) → Except Unit Model)
    (predictSeg : Model → List PredictionRow) (df : List SegmentRow) :
    Except Unit (List PredictionRow) :=
  let model_df := dropNullRows df
  if model_df.length < MIN_ROWS_FOR_GP then Except.ok []
  else
    match fit model_df with
    | .error _ => Except.ok []
    | .ok m => Except.ok (predictSeg m)

/-! Theorems. -/

/-- Both branches of the multiplier `match` in `predict_daily` build the row
from the mean and std scaled by `appliedMult`. -/
theorem predict_daily_eq_map (gp : ℤ → ℚ × ℚ) (start stop : ℤ)
    (month_mult : Option (List (ℕ × ℚ))) :
    predict_daily gp start stop month_mult = (dateRange start stop).map fun d =>
      predictionRowOf d ((gp d).1 * appliedMult month_mult d)
        ((gp d).2 * appliedMult month_mult d) := by
  cases month_mult <;> simp [predict_daily, appliedMult, mul_one]

/-- C1 fails as stated: a fitted model may produce a negative predictive
mean (for example by GP undershoot or a negative month multiplier), and then
`pred_lo = max(mean - 1.96*std, 0) = 0 > mean`.  Concretely, a model whose
prediction is `(mean, std) = (-1, 0)` gives a row with `pred_lo = 0`,
`pred_mean = -1`, `pred_hi = -1`. -/
theorem C1_counterexample :
    ¬ ∀ r ∈ predict_daily (fun _ => ((-1 : ℚ), 0)) 0 0 none,
        0 ≤ r.pred_lo ∧ r.pred_lo ≤ r.pred_mean ∧ r.pred_mean ≤ r.pred_hi := by
  intro hall
  have hmem : predictionRowOf 0 (-1) 0
      ∈ predict_daily (fun _ => ((-1 : ℚ), 0)) 0 0 none := by
    simp [predict_daily, dateRange]
  have h := (hall _ hmem).2.1
  simp only [predictionRowOf] at h
  norm_num [max_def] at h

/-- C1 (amended): for every row of `predict_daily`, over any inclusive range,
any model and any multiplier table, if the reseasonalized mean and the
reseasonalized std of each day are nonnegative then
`0 ≤ pred_lo ≤ pred_mean ≤ pred_hi`. -/
theorem C1_bounds_ordered (gp : ℤ → ℚ × ℚ) (start stop : ℤ)
    (month_mult : Option (List (ℕ × ℚ)))
    (hmean : ∀ d : ℤ, 0 ≤ (gp d).1 * appliedMult month_mult d)
    (hstd : ∀ d : ℤ, 0 ≤ (gp d).2 * appliedMult month_mult d) :
    ∀ r ∈ predict_daily gp start stop month_mult,
      0 ≤ r.pred_lo ∧ r.pred_lo ≤ r.pred_mean ∧ r.pred_mean ≤ r.pred_hi := by
  intro r hr
  rw [predict_daily_eq_map] at hr
  rcases List.mem_map.mp hr with ⟨d, _, rfl⟩
  have h1 := hmean d
  have h2 := hstd d
  dsimp [predictionRowOf]
  exact ⟨le_max_right _ _, max_le (by linarith) h1, by linarith⟩

/-- C1 witness: at the constant model `(5, 1)` on the single day `0` the
amended bounds hold for the produced row. -/
theorem C1_bounds_ordered_witness :
    0 ≤ (predictionRowOf 0 5 1).pred_lo ∧
    (predictionRowOf 0 5 1).pred_lo ≤ (predictionRowOf 0 5 1).pred_mean ∧
    (predictionRowOf 0 5 1).pred_mean ≤ (predictionRowOf 0 5 1).pred_hi :=
  C1_bounds_ordered (fun _ => ((5 : ℚ), 1)) 0 0 none
    (fun _ => by norm_num [appliedMult]) (fun _ => by norm_num [appliedMult])
    (predictionRowOf 0 5 1) (by simp [predict_daily, dateRange])

/-- C5 fails as stated: invoked with `end` before `start`, `predict_daily`
does not fail with an `InvalidRangeError` (no such error exists anywhere in
the repository and the function performs no range validation); the date
range is simply empty, so the function yields zero prediction rows. -/
theorem C5_counterexample :
    predict_daily (fun _ => ((1 : ℚ), 1)) 1 0 none = [] := by
  decide

/-- C5 (amended): for `end < start`, `predict_daily` raises no typed range
error — the repository defines no `InvalidRangeError`; its generated daily
range is empty and it produces zero rows.  (In the running source the empty
feature matrix is then rejected by the external scikit-learn scaler as a
generic untyped `ValueError`; that is library code outside this
repository.) -/
theorem C5_reversed_range_empty (gp : ℤ → ℚ × ℚ) (start stop : ℤ)
    (month_mult : Option (List (ℕ × ℚ))) (h : stop < start) :
    predict_daily gp start stop month_mult = [] := by
  have h0 : (stop + 1 - start).toNat = 0 := by omega
  cases month_mult <;> simp [predict_daily, dateRange, h0]

/-- C5 witness: a concrete reversed range yields zero rows. -/
theorem C5_reversed_range_empty_witness :
    predict_daily (fun _ => ((2 : ℚ), 1)) 5 4 none = [] :=
  C5_reversed_range_empty (fun _ => ((2 : ℚ), 1)) 5 4 none (by decide)

/-- C9: over any valid inclusive range `[start, end]` with `start ≤ end`,
`predict_daily` produces exactly `(end - start) + 1` rows, one per calendar
day, in ascending date order, for any model and any multiplier table. -/
theorem C9_one_row_per_day (gp : ℤ → ℚ × ℚ) (start stop : ℤ)
    (month_mult : Option (List (ℕ × ℚ))) (h : start ≤ stop) :
    (predict_daily gp start stop month_mult).length = (stop - start).toNat + 1 ∧
    (predict_daily gp start stop month_mult).map (fun r => r.contract_date)
      = (List.range ((stop - start).toNat + 1)).map (fun i : ℕ => start + (i : ℤ)) := by
  have hn : (stop + 1 - start).toNat = (stop - start).toNat + 1 := by omega
  rw [predict_daily_eq_map]
  constructor
  · simp only [dateRange, hn, List.length_map, List.length_range]
  · simp only [dateRange, hn, List.map_map]
    rfl

/-- C9 witness: the three-day range `[10, 12]`. -/
theorem C9_one_row_per_day_witness :
    (predict_daily (fun _ => ((3 : ℚ), 1)) 10 12 none).length
      = ((12 : ℤ) - 10).toNat + 1 ∧
    (predict_daily (fun _ => ((3 : ℚ), 1)) 10 12 none).map
        (fun r => r.contract_date)
      = (List.range (((12 : ℤ) - 10).toNat + 1)).map (fun i : ℕ => (10 : ℤ) + (i : ℤ)) :=
  C9_one_row_per_day (fun _ => ((3 : ℚ), 1)) 10 12 none (by decide)

/-- C6: a segment with fewer than 20 valid `(date, value)` rows after
dropping nulls yields zero prediction rows and returns normally (no error
escapes to the caller of `_fit_and_predict`, so the multi-segment loop of
`compute_all_predictions` is never aborted by such a segment). -/
theorem C6_insufficient_rows {Model : Type}
    (fit : List (ℤ × ℚ) → Except Unit Model)
    (predictSeg : Model → List PredictionRow) (df : List SegmentRow)
    (h : (dropNullRows df).length < 20) :
    fit_and_predict fit predictSeg df = Except.ok [] := by
  simp [fit_and_predict, MIN_ROWS_FOR_GP, h]

/-- C6 witness: a segment of two rows (one of them null-valued). -/
theorem C6_insufficient_rows_witness :
    fit_and_predict (fun _ : List (ℤ × ℚ) => Except.ok ())
      (fun _ => [predictionRowOf 0 1 1])
      [{ contract_date := some 0, registration_time := none },
       { contract_date := some 1, registration_time := some 3 }] = Except.ok [] :=
  C6_insufficient_rows _ _ _ (by decide)

/-- A key absent from the key column of an association list looks up to
`none` (the left join produces a null). -/
theorem lookup_eq_none_of_not_mem {β : Type} (l : List (ℕ × β)) (m : ℕ)
    (h : m ∉ l.map Prod.fst) : l.lookup m = none := by
  induction l with
  | nil => rfl
  | cons p t ih =>
      obtain ⟨k, v⟩ := p
      simp only [List.map_cons, List.mem_cons, not_or] at h
      have hk : (m == k) = false := beq_eq_false_iff_ne.mpr h.1
      simp only [List.lookup, hk]
      exact ih h.2

/-- Every element of a `zipWith` comes from applying the function to a pair
of elements of the two lists. -/
theorem mem_zipWith_imp {α β γ : Type} (f : α → β → γ) :
    ∀ (as : List α) (bs : List β), ∀ c ∈ List.zipWith f as bs,
      ∃ a ∈ as, ∃ b ∈ bs, c = f a b := by
  intro as
  induction as with
  | nil => intro bs c hc; simp at hc
  | cons a t ih =>
      intro bs c hc
      cases bs with
      | nil => simp at hc
      | cons b u =>
          rw [List.zipWith_cons_cons] at hc
          rcases List.mem_cons.mp hc with h | h
          · exact ⟨a, List.mem_cons_self a t, b, List.mem_cons_self b u, h⟩
          · rcases ih u c h with ⟨a1, ha1, b1, hb1, rfl⟩
            exact ⟨a1, List.mem_cons_of_mem a ha1, b1, List.mem_cons_of_mem b hb1, rfl⟩

/-- C2 fails as stated: the source clamps non-finite multipliers, not
non-finite ratios.  A finite multiplier `0.0` for a month (here month 1)
turns the finite target `1.0` into the non-finite ratio `1/0 = inf`, which
is propagated into the training targets. -/
theorem C2_counterexample :
    ¬ ∀ v ∈ deseasonalize [RFloat.fin 1] (fitMultipliers [(1, RFloat.fin 0)] [1]),
        v.isFinite = true := by
  have hl : deseasonalize [RFloat.fin 1] (fitMultipliers [(1, RFloat.fin 0)] [1])
      = [RFloat.inf] := by
    simp [deseasonalize, fitMultipliers, clampNonFinite, RFloat.isFinite,
      RFloat.div, List.lookup]
  intro hall
  have h := hall RFloat.inf (by rw [hl]; exact List.mem_singleton.mpr rfl)
  simp [RFloat.isFinite] at h

/-- C2 (amended): the clamp neutralizes every non-finite multiplier to
`1.0` (so every clamped multiplier is finite and, under the hypotheses,
nonzero); consequently the deseasonalized targets are all finite provided
every target value is finite and every finite multiplier entry is nonzero. -/
theorem C2_finite_targets (y mm : List RFloat)
    (hy : ∀ v ∈ y, v.isFinite = true)
    (hmm : ∀ v ∈ mm, v.isFinite = true → v ≠ RFloat.fin 0) :
    (∀ v ∈ clampNonFinite mm, v.isFinite = true ∧ v ≠ RFloat.fin 0) ∧
    (∀ v ∈ deseasonalize y mm, v.isFinite = true) := by
  have hclamp : ∀ v ∈ clampNonFinite mm, v.isFinite = true ∧ v ≠ RFloat.fin 0 := by
    intro v hv
    rcases List.mem_map.mp hv with ⟨w, hw, rfl⟩
    by_cases hfin : w.isFinite = true
    · rw [if_pos hfin]
      exact ⟨hfin, hmm w hw hfin⟩
    · rw [if_neg hfin]
      refine ⟨rfl, ?_⟩
      intro he
      rw [RFloat.fin.injEq] at he
      exact one_ne_zero he
  refine ⟨hclamp, ?_⟩
  intro v hv
  rcases mem_zipWith_imp RFloat.div y (clampNonFinite mm) v hv with ⟨a, ha, b, hb, rfl⟩
  have hfa := hy a ha
  obtain ⟨hfb, hb0⟩ := hclamp b hb
  cases a with
  | fin qa =>
      cases b with
      | fin qb =>
          have hqb : qb ≠ 0 := fun h => hb0 (by rw [h])
          simp [RFloat.div, hqb, RFloat.isFinite]
      | inf => simp [RFloat.isFinite] at hfb
      | ninf => simp [RFloat.isFinite] at hfb
      | nan => simp [RFloat.isFinite] at hfb
  | inf => simp [RFloat.isFinite] at hfa
  | ninf => simp [RFloat.isFinite] at hfa
  | nan => simp [RFloat.isFinite] at hfa

/-- C2 witness: finite targets with a multiplier column containing `inf`
and NaN entries (both clamped to `1.0`) deseasonalize to finite values. -/
theorem C2_finite_targets_witness :
    (∀ v ∈ clampNonFinite [RFloat.inf, RFloat.nan],
        v.isFinite = true ∧ v ≠ RFloat.fin 0) ∧
    (∀ v ∈ deseasonalize [RFloat.fin 4, RFloat.fin 6] [RFloat.inf, RFloat.nan],
        v.isFinite = true) :=
  C2_finite_targets [RFloat.fin 4, RFloat.fin 6] [RFloat.inf, RFloat.nan]
    (by decide) (by decide)

/-- C10: a date whose calendar month is absent from the supplied multiplier
table is treated as having multiplier `1.0` in both fitting and prediction:
the predict-side joined multiplier is `1`, the fit-side joined multiplier
column is `[1.0]` so the deseasonalized target equals the raw target, and
the prediction row for such a date carries the model's raw mean/std —
no failure and no null is produced (the embedded lookups are total). -/
theorem C10_absent_month_neutral (d : ℤ) (tq : List (ℕ × ℚ))
    (tf : List (ℕ × RFloat))
    (hq : monthOfDay d ∉ tq.map Prod.fst)
    (hf : monthOfDay d ∉ tf.map Prod.fst) :
    monthMultiplier tq (monthOfDay d) = 1 ∧
    (∀ q : ℚ, deseasonalize [RFloat.fin q] (fitMultipliers tf [monthOfDay d])
        = [RFloat.fin q]) ∧
    (∀ gp : ℤ → ℚ × ℚ, ∀ start stop : ℤ,
      ∀ r ∈ predict_daily gp start stop (some tq), r.contract_date = d →
        r = predictionRowOf d (gp d).1 (gp d).2) := by
  have hlq : tq.lookup (monthOfDay d) = none := lookup_eq_none_of_not_mem tq _ hq
  have hlf : tf.lookup (monthOfDay d) = none := lookup_eq_none_of_not_mem tf _ hf
  have hmult : monthMultiplier tq (monthOfDay d) = 1 := by
    rw [monthMultiplier, hlq]
  refine ⟨hmult, ?_, ?_⟩
  · intro q
    simp [deseasonalize, fitMultipliers, clampNonFinite, hlf, RFloat.isFinite,
      RFloat.div]
  · intro gp start stop r hr hrd
    rcases List.mem_map.mp hr with ⟨d0, _, rfl⟩
    have hd0 : d0 = d := hrd
    subst hd0
    simp only [hmult, mul_one]

/-- C10 witness: 2024-03-15 (day 19797, month 3) against tables that only
contain month 1. -/
theorem C10_absent_month_neutral_witness :
    monthMultiplier [(1, 5/2)] (monthOfDay 19797) = 1 ∧
    (∀ q : ℚ, deseasonalize [RFloat.fin q]
        (fitMultipliers [(1, RFloat.fin 2)] [monthOfDay 19797])
        = [RFloat.fin q]) ∧
    (∀ gp : ℤ → ℚ × ℚ, ∀ start stop : ℤ,
      ∀ r ∈ predict_daily gp start stop (some [(1, 5/2)]),
        r.contract_date = 19797 →
        r = predictionRowOf 19797 (gp 19797).1 (gp 19797).2) :=
  C10_absent_month_neutral 19797 [(1, 5/2)] [(1, RFloat.fin 2)]
    (by decide) (by decide)

/-- C7: `fill_missing_with_gp` outputs one row per date of the prediction
table (in order); pairing each prediction row with its output row: the date
is preserved, `pred_lo`/`pred_hi` are unchanged regardless of fill status,
and when an observed value exists for the date the row has `filled = false`
and value equal to the observed value, otherwise `filled = true` and value
equal to the predicted mean. -/
theorem C7_fill_semantics (df_obs : List ObservedRow) (df_pred : List PredictionRow) :
    (fill_missing_with_gp df_obs df_pred).length = df_pred.length ∧
    ∀ pr ∈ df_pred.zip (fill_missing_with_gp df_obs df_pred),
      pr.2.contract_date = pr.1.contract_date ∧
      pr.2.pred_lo = pr.1.pred_lo ∧
      pr.2.pred_hi = pr.1.pred_hi ∧
      (∀ v : ℚ, observedValue df_obs pr.1.contract_date = some v →
          pr.2.filled = false ∧ pr.2.registration_time_filled = v) ∧
      (observedValue df_obs pr.1.contract_date = none →
          pr.2.filled = true ∧ pr.2.registration_time_filled = pr.1.pred_mean) := by
  constructor
  · exact List.length_map _ _
  · intro pr hpr
    have hzip : df_pred.zip (fill_missing_with_gp df_obs df_pred)
        = df_pred.map fun p => (p, fillRow df_obs p) := by
      calc df_pred.zip (df_pred.map (fillRow df_obs))
          = (df_pred.map id).zip (df_pred.map (fillRow df_obs)) := by
            rw [List.map_id]
        _ = df_pred.map fun p => (id p, fillRow df_obs p) :=
            List.zip_map' id (fillRow df_obs) df_pred
    rw [hzip] at hpr
    rcases List.mem_map.mp hpr with ⟨p, _, rfl⟩
    refine ⟨rfl, rfl, rfl, ?_, ?_⟩
    · intro v hv
      constructor <;> simp [fillRow, hv]
    · intro hnone
      constructor <;> simp [fillRow, hnone]

/-- C7 witness: one observed date (value 7) and a one-row prediction
table. -/
theorem C7_fill_semantics_witness :
    (fill_missing_with_gp [{ contract_date := 0, registration_time := some 7 }]
        [{ contract_date := 0, pred_mean := 1, pred_lo := 0, pred_hi := 2 }]).length
      = [({ contract_date := 0, pred_mean := 1, pred_lo := 0, pred_hi := 2 }
          : PredictionRow)].length ∧
    ∀ pr ∈ [({ contract_date := 0, pred_mean := 1, pred_lo := 0, pred_hi := 2 }
          : PredictionRow)].zip
        (fill_missing_with_gp
          [{ contract_date := 0, registration_time := some 7 }]
          [{ contract_date := 0, pred_mean := 1, pred_lo := 0, pred_hi := 2 }]),
      pr.2.contract_date = pr.1.contract_date ∧
      pr.2.pred_lo = pr.1.pred_lo ∧
      pr.2.pred_hi = pr.1.pred_hi ∧
      (∀ v : ℚ, observedValue
            [{ contract_date := 0, registration_time := some 7 }]
            pr.1.contract_date = some v →
          pr.2.filled = false ∧ pr.2.registration_time_filled = v) ∧
      (observedValue [{ contract_date := 0, registration_time := some 7 }]
            pr.1.contract_date = none →
          pr.2.filled = true ∧ pr.2.registration_time_filled = pr.1.pred_mean) :=
  C7_fill_semantics [{ contract_date := 0, registration_time := some 7 }]
    [{ contract_date := 0, pred_mean := 1, pred_lo := 0, pred_hi := 2 }]

/-- C4 fails as stated: the degenerate case `hi == lo` is not fully
guarded.  With `pred_lo = pred_hi = 5` and target `5`, the source computes
`ci_pos = np.clip((5-5)/(5-5), 0, 1) = np.clip(nan, 0, 1) = nan`
(`np.errstate` only silences the warning), so `ci_pct` is NaN — not a value
in `[0, 100]`. -/
theorem C4_counterexample :
    (add_prob_good_enough (fun _ => 0) (3/2) Direction.at_least (fun _ => 5)
        [{ contract_date := 0, pred_mean := 5, pred_lo := 5, pred_hi := 5 }]).map
      (fun s => s.ci_pct) = [RFloat.nan] := by
  simp [add_prob_good_enough, scoreRow, RFloat.div, RFloat.clip01, RFloat.mulQ]

/-- C4 (amended): for every input row (with any `erf` implementation within
its mathematical range `[-1, 1]` and any direction), the probability lies
in `[0, 100]`; `ci_pct` is a value in `[0, 100]` for every row except the
degenerate one with `pred_hi = pred_lo` and target exactly `pred_lo`, where
`ci_pct` is NaN. -/
theorem C4_score_bounds (erf : ℚ → ℚ) (sqrt2 : ℚ) (direction : Direction)
    (my_time_fn : ℤ → ℚ) (df_pred : List ScoreInputRow)
    (herf : ∀ x : ℚ, -1 ≤ erf x ∧ erf x ≤ 1) :
    ∀ s ∈ add_prob_good_enough erf sqrt2 direction my_time_fn df_pred,
      (0 ≤ s.prob_good_enough ∧ s.prob_good_enough ≤ 100) ∧
      (s.pred_hi ≠ s.pred_lo ∨ s.my_time ≠ s.pred_lo →
        ∃ q : ℚ, s.ci_pct = RFloat.fin q ∧ 0 ≤ q ∧ q ≤ 100) ∧
      (s.pred_hi = s.pred_lo → s.my_time = s.pred_lo → s.ci_pct = RFloat.nan) := by
  intro s hs
  rcases List.mem_map.mp hs with ⟨r, _, rfl⟩
  dsimp only [scoreRow]
  have hcb := herf ((my_time_fn r.contract_date - r.pred_mean) /
      max ((r.pred_hi - r.pred_lo) / (98/25)) (1/1000000000) / sqrt2)
  refine ⟨?_, ?_, ?_⟩
  · cases direction <;> dsimp <;> constructor <;> nlinarith [hcb.1, hcb.2]
  · intro hcond
    by_cases hD : r.pred_hi - r.pred_lo = 0
    · have hN : my_time_fn r.contract_date - r.pred_lo ≠ 0 := by
        rcases hcond with h | h
        · exact absurd (sub_eq_zero.mp hD) h
        · exact sub_ne_zero.mpr h
      have hdiv : RFloat.div (RFloat.fin (my_time_fn r.contract_date - r.pred_lo))
          (RFloat.fin (r.pred_hi - r.pred_lo))
          = if 0 < my_time_fn r.contract_date - r.pred_lo
            then RFloat.inf else RFloat.ninf := by
        simp [RFloat.div, hD, hN]
      rcases lt_or_gt_of_ne hN with hneg | hpos
      · refine ⟨0, ?_, le_refl 0, by norm_num⟩
        rw [hdiv, if_neg (not_lt.mpr hneg.le)]
        simp [RFloat.clip01, RFloat.mulQ]
      · refine ⟨100, ?_, by norm_num, le_refl 100⟩
        rw [hdiv, if_pos hpos]
        simp [RFloat.clip01, RFloat.mulQ]
    · have hdiv : RFloat.div (RFloat.fin (my_time_fn r.contract_date - r.pred_lo))
          (RFloat.fin (r.pred_hi - r.pred_lo))
          = RFloat.fin ((my_time_fn r.contract_date - r.pred_lo)
              / (r.pred_hi - r.pred_lo)) := by
        simp [RFloat.div, hD]
      refine ⟨max 0 (min 1 ((my_time_fn r.contract_date - r.pred_lo)
          / (r.pred_hi - r.pred_lo))) * 100, ?_, ?_, ?_⟩
      · rw [hdiv]
        simp [RFloat.clip01, RFloat.mulQ]
      · positivity
      · have h1 : min 1 ((my_time_fn r.contract_date - r.pred_lo)
            / (r.pred_hi - r.pred_lo)) ≤ 1 := min_le_left _ _
        have h2 : max 0 (min 1 ((my_time_fn r.contract_date - r.pred_lo)
            / (r.pred_hi - r.pred_lo))) ≤ 1 := max_le (by norm_num) h1
        nlinarith [h2]
  · intro hEq hM
    have hD : r.pred_hi - r.pred_lo = 0 := sub_eq_zero.mpr hEq
    have hN : my_time_fn r.contract_date - r.pred_lo = 0 := sub_eq_zero.mpr hM
    simp [RFloat.div, hD, hN, RFloat.clip01, RFloat.mulQ]

/-- C4 witness: the scored version of one non-degenerate row, with `erf`
instantiated as the constant zero function (which lies in `[-1, 1]`), has
its probability in `[0, 100]`. -/
theorem C4_score_bounds_witness :
    0 ≤ (scoreRow (fun _ => 0) (3/2) Direction.at_least (fun _ => 2)
        { contract_date := 0, pred_mean := 3, pred_lo := 1, pred_hi := 5
        }).prob_good_enough ∧
    (scoreRow (fun _ => 0) (3/2) Direction.at_least (fun _ => 2)
        { contract_date := 0, pred_mean := 3, pred_lo := 1, pred_hi := 5
        }).prob_good_enough ≤ 100 :=
  (C4_score_bounds (fun _ => 0) (3/2) Direction.at_least (fun _ => 2)
      [{ contract_date := 0, pred_mean := 3, pred_lo := 1, pred_hi := 5 }]
      (fun _ => ⟨by norm_num, by norm_num⟩)
      (scoreRow (fun _ => 0) (3/2) Direction.at_least (fun _ => 2)
        { contract_date := 0, pred_mean := 3, pred_lo := 1, pred_hi := 5 })
      (List.mem_singleton.mpr rfl)).1

/-- Sum of a mapped range as a `Finset` sum. -/
theorem listSum_range_eq (f : ℕ → ℚ) (n : ℕ) :
    ((List.range n).map f).sum = ∑ i ∈ Finset.range n, f i := by
  induction n with
  | zero => simp
  | succ n ih => rw [List.range_succ, Finset.sum_range_succ, List.map_append,
      List.sum_append, ih, List.map_singleton, List.sum_singleton]

/-- Summing `getD` over the index range of a list gives the list's sum. -/
theorem sum_getD_range (v : List ℚ) :
    ∑ i ∈ Finset.range v.length, v.getD i 0 = v.sum := by
  induction v with
  | nil => simp
  | cons a t ih =>
      rw [List.length_cons, Finset.sum_range_succ']
      simp only [List.getD_cons_succ, List.getD_cons_zero]
      rw [ih, List.sum_cons, add_comm]

/-- Summing a cyclically shifted read of a 12-element list over one full
period gives the list's sum. -/
theorem sum_cycle (v : List ℚ) (hv : v.length = 12) (c : ℤ) :
    ∑ i ∈ Finset.range 12, v.getD ((((i : ℤ) + c) % 12)).toNat 0 = v.sum := by
  have h12 : ∑ j ∈ Finset.range 12, v.getD j 0 = v.sum := by
    rw [← hv, sum_getD_range]
  rw [← h12]
  refine Finset.sum_nbij' (fun a => ((((a : ℤ) + c) % 12)).toNat)
    (fun b => ((((b : ℤ) - c) % 12)).toNat) ?_ ?_ ?_ ?_ ?_
  · intro a ha
    rw [Finset.mem_range] at ha ⊢
    dsimp only
    omega
  · intro b hb
    rw [Finset.mem_range] at hb ⊢
    dsimp only
    omega
  · intro a ha
    rw [Finset.mem_range] at ha
    dsimp only
    omega
  · intro b hb
    rw [Finset.mem_range] at hb
    dsimp only
    omega
  · intro a _
    rfl

/-- The circular smoothing always returns 12 values. -/
theorem smoothCirc_length (v : List ℚ) (r : ℕ) : (smoothCirc v r).length = 12 := by
  simp [smoothCirc]

/-- The circular smoothing preserves the sum of a 12-element list: each
window mean redistributes mass but the wrap-around double counts every
entry exactly `2r+1` times. -/
theorem smoothCirc_sum (v : List ℚ) (hv : v.length = 12) (r : ℕ) :
    (smoothCirc v r).sum = v.sum := by
  unfold smoothCirc
  rw [listSum_range_eq]
  have hinner : ∀ i : ℕ,
      ((List.range (2 * r + 1)).map fun t : ℕ =>
        v.getD (((((i : ℤ) + (t : ℤ) - (r : ℤ)) % 12)).toNat) 0).sum
      = ∑ t ∈ Finset.range (2 * r + 1),
          v.getD (((((i : ℤ) + ((t : ℤ) - (r : ℤ))) % 12)).toNat) 0 := by
    intro i
    rw [listSum_range_eq]
    refine Finset.sum_congr rfl ?_
    intro t _
    rw [add_sub_assoc]
  have hswap : ∑ i ∈ Finset.range 12, ∑ t ∈ Finset.range (2 * r + 1),
      v.getD (((((i : ℤ) + ((t : ℤ) - (r : ℤ))) % 12)).toNat) 0
      = (2 * r + 1 : ℚ) * v.sum := by
    rw [Finset.sum_comm]
    have hfix : ∀ t : ℕ, ∑ i ∈ Finset.range 12,
        v.getD (((((i : ℤ) + ((t : ℤ) - (r : ℤ))) % 12)).toNat) 0 = v.sum := by
      intro t
      exact sum_cycle v hv ((t : ℤ) - (r : ℤ))
    rw [Finset.sum_congr rfl fun t _ => hfix t, Finset.sum_const, Finset.card_range,
      nsmul_eq_mul]
    push_cast
    ring
  calc ∑ i ∈ Finset.range 12,
        (((List.range (2 * r + 1)).map fun t : ℕ =>
          v.getD (((((i : ℤ) + (t : ℤ) - (r : ℤ)) % 12)).toNat) 0).sum) / (2 * r + 1)
      = (∑ i ∈ Finset.range 12, ∑ t ∈ Finset.range (2 * r + 1),
          v.getD (((((i : ℤ) + ((t : ℤ) - (r : ℤ))) % 12)).toNat) 0) / (2 * r + 1) := by
        rw [Finset.sum_div]
        exact Finset.sum_congr rfl fun i _ => by rw [hinner i]
    _ = ((2 * r + 1 : ℚ) * v.sum) / (2 * r + 1) := by rw [hswap]
    _ = v.sum := mul_div_cancel_left₀ _ (by positivity)

/-- Filling the missing values of a partial column with a constant:
the filled sum plus the present count times the constant equals the present
sum plus the full length times the constant. -/
theorem getD_fill_sum (f : ℕ → Option ℚ) (c : ℚ) (L : List ℕ) :
    (L.map fun m => (f m).getD c).sum + ((L.filterMap f).length : ℚ) * c
      = (L.filterMap f).sum + (L.length : ℚ) * c := by
  induction L with
  | nil => simp
  | cons a t ih =>
      cases h : f a with
      | none =>
          rw [List.map_cons, List.sum_cons, List.filterMap_cons, h,
            List.length_cons, Option.getD_none]
          push_cast
          linarith [ih]
      | some v =>
          rw [List.map_cons, List.sum_cons, List.filterMap_cons, h,
            List.length_cons, List.length_cons, List.sum_cons, Option.getD_some]
          push_cast
          linarith [ih]

/-- Dividing every entry of a list by a constant divides the sum. -/
theorem list_sum_map_div (l : List ℚ) (c : ℚ) :
    (l.map fun v => v / c).sum = l.sum / c := by
  induction l with
  | nil => simp
  | cons a t ih => rw [List.map_cons, List.sum_cons, ih, List.sum_cons, add_div]

/-- C3 fails as stated: the `strength` power transform runs after the
normalization, so for `strength ≠ 1` the mean is in general no longer 1.
Input months `{1: 3, 2: 1}` with `strength = 2`, `smooth_radius = 0`, give
12 rows whose multiplier mean is `25/24` — off from 1 by `1/24`, far beyond
the `1e-6` tolerance. -/
theorem C3_counterexample :
    (trends_monthly_multiplier [(1, 3), (2, 1)] 2 0).map
        (fun rows => (rows.length, (rows.map Prod.snd).sum / 12))
      = some (12, 25/24) ∧ ¬ ((25 : ℚ)/24 - 1 ≤ 1/1000000) := by
  constructor
  · have h0 : trends_monthly_multiplier [(1, 3), (2, 1)] 2 0
        = some (scaffoldMonths.zip
            ((normalizeVals (monthScaffoldFill [(1, 3), (2, 1)]
                ((providedValues [(1, 3), (2, 1)]).sum
                  / ((providedValues [(1, 3), (2, 1)]).length : ℚ)))).map
              (fun v => v ^ (2 : ℤ)))) := rfl
    rw [h0]
    have h2 : (providedValues [(1, 3), (2, 1)]).sum
        / ((providedValues [(1, 3), (2, 1)]).length : ℚ) = 2 := by
      norm_num [show providedValues [(1, 3), (2, 1)] = [3, 1] from rfl]
    rw [h2]
    rw [show monthScaffoldFill [(1, 3), (2, 1)] 2
        = [3, 1, 2, 2, 2, 2, 2, 2, 2, 2, 2, 2] from rfl]
    have h4 : normalizeVals [3, 1, 2, 2, 2, 2, 2, 2, 2, 2, 2, 2]
        = [3/2, 1/2, 1, 1, 1, 1, 1, 1, 1, 1, 1, 1] := by
      norm_num [normalizeVals]
    rw [h4]
    have h5 : ([3/2, 1/2, 1, 1, 1, 1, 1, 1, 1, 1, 1, 1] : List ℚ).map
          (fun v => v ^ (2 : ℤ))
        = [9/4, 1/4, 1, 1, 1, 1, 1, 1, 1, 1, 1, 1] := by
      norm_num
    rw [h5, show scaffoldMonths = [1, 2, 3, 4, 5, 6, 7, 8, 9, 10, 11, 12] from rfl]
    norm_num
  · norm_num

/-- C3 (amended): for any input table with at least one month in 1-12 whose
provided values have nonzero mean, any smoothing radius, and the default
`strength = 1`, the builder returns exactly 12 rows, one per month 1-12,
and the multiplier mean is exactly 1. -/
theorem C3_twelve_rows_mean_one (table : List (ℕ × ℚ)) (radius : ℕ)
    (hne : (providedValues table).length ≠ 0)
    (hsum : (providedValues table).sum ≠ 0) :
    ∃ rows, trends_monthly_multiplier table 1 radius = some rows ∧
      rows.length = 12 ∧ rows.map Prod.fst = scaffoldMonths ∧
      (rows.map Prod.snd).sum / 12 = 1 := by
  set mu := (providedValues table).sum / ((providedValues table).length : ℚ)
    with hmu
  set vals0 := monthScaffoldFill table mu with hv0
  set vals1 := (if 0 < radius then smoothCirc vals0 radius else vals0) with hv1
  have hL : ((providedValues table).length : ℚ) ≠ 0 := Nat.cast_ne_zero.mpr hne
  have hmu0 : mu ≠ 0 := div_ne_zero hsum hL
  have hscafLen : scaffoldMonths.length = 12 := by simp [scaffoldMonths]
  have hv0len : vals0.length = 12 := by
    simp [hv0, monthScaffoldFill, scaffoldMonths]
  have hps : (providedValues table).sum = ((providedValues table).length : ℚ) * mu := by
    rw [hmu, mul_comm, div_mul_cancel₀ _ hL]
  have hfill : vals0.sum = 12 * mu := by
    have hg := getD_fill_sum (fun m => table.lookup m) mu scaffoldMonths
    rw [hscafLen] at hg
    have hveq : vals0.sum
        = (scaffoldMonths.map fun m => ((table.lookup m).getD mu)).sum := rfl
    rw [← hveq] at hg
    have hpv : scaffoldMonths.filterMap (fun m => table.lookup m)
        = providedValues table := rfl
    rw [hpv] at hg
    rw [hps] at hg
    push_cast at hg
    linarith [hg]
  have hv1len : vals1.length = 12 := by
    rw [hv1]
    split
    · exact smoothCirc_length vals0 radius
    · exact hv0len
  have hv1sum : vals1.sum = 12 * mu := by
    rw [hv1]
    split
    · rw [smoothCirc_sum vals0 hv0len]
      exact hfill
    · exact hfill
  have hnormLen : (normalizeVals vals1).length = 12 := by
    simp [normalizeVals, hv1len]
  have hnormSum : (normalizeVals vals1).sum = 12 := by
    have h1 : (normalizeVals vals1).sum = vals1.sum / (vals1.sum / 12) :=
      list_sum_map_div vals1 (vals1.sum / 12)
    rw [h1, hv1sum, mul_div_cancel_left₀ mu (by norm_num : (12 : ℚ) ≠ 0)]
    exact mul_div_cancel_right₀ 12 hmu0
  refine ⟨scaffoldMonths.zip (normalizeVals vals1), ?_, ?_, ?_, ?_⟩
  · unfold trends_monthly_multiplier
    rw [if_neg hne]
    rfl
  · rw [List.length_zip, hscafLen, hnormLen]
    exact Nat.min_self 12
  · exact List.map_fst_zip _ _ (by rw [hscafLen, hnormLen])
  · rw [List.map_snd_zip _ _ (by rw [hscafLen, hnormLen] : (normalizeVals vals1).length ≤ scaffoldMonths.length),
      hnormSum]
    norm_num

/-- C3 witness: a single provided month `{1: 2}` with smoothing radius 1
still yields 12 rows with mean exactly 1. -/
theorem C3_twelve_rows_mean_one_witness :
    ∃ rows, trends_monthly_multiplier [(1, 2)] 1 1 = some rows ∧
      rows.length = 12 ∧ rows.map Prod.fst = scaffoldMonths ∧
      (rows.map Prod.snd).sum / 12 = 1 :=
  C3_twelve_rows_mean_one [(1, 2)] 1
    (by norm_num [show providedValues [(1, 2)] = [2] from rfl])
    (by norm_num [show providedValues [(1, 2)] = [2] from rfl])

/-- C8: for the input months `{1: 100, 6: 50, 12: 75}` the mean of the
provided values is 75, every missing month of 1-12 is filled with 75 before
normalization, and the builder's result still has 12 rows with multiplier
mean exactly 1. -/
theorem C8_missing_months_filled :
    (providedValues [(1, 100), (6, 50), (12, 75)]).sum
        / ((providedValues [(1, 100), (6, 50), (12, 75)]).length : ℚ) = 75 ∧
    monthScaffoldFill [(1, 100), (6, 50), (12, 75)] 75
      = [100, 75, 75, 75, 75, 50, 75, 75, 75, 75, 75, 75] ∧
    (trends_monthly_multiplier [(1, 100), (6, 50), (12, 75)] 1 0).map
        (fun rows => (rows.length, (rows.map Prod.snd).sum / 12))
      = some (12, 1) := by
  refine ⟨?_, ?_, ?_⟩
  · norm_num [show providedValues [(1, 100), (6, 50), (12, 75)] = [100, 50, 75]
      from rfl]
  · rfl
  · have h0 : trends_monthly_multiplier [(1, 100), (6, 50), (12, 75)] 1 0
        = some (scaffoldMonths.zip
            (normalizeVals (monthScaffoldFill [(1, 100), (6, 50), (12, 75)]
                ((providedValues [(1, 100), (6, 50), (12, 75)]).sum
                  / ((providedValues [(1, 100), (6, 50), (12, 75)]).length : ℚ)))))
        := rfl
    rw [h0]
    have h2 : (providedValues [(1, 100), (6, 50), (12, 75)]).sum
        / ((providedValues [(1, 100), (6, 50), (12, 75)]).length : ℚ) = 75 := by
      norm_num [show providedValues [(1, 100), (6, 50), (12, 75)] = [100, 50, 75]
        from rfl]
    rw [h2]
    rw [show monthScaffoldFill [(1, 100), (6, 50), (12, 75)] 75
        = [100, 75, 75, 75, 75, 50, 75, 75, 75, 75, 75, 75] from rfl]
    have h4 : normalizeVals [100, 75, 75, 75, 75, 50, 75, 75, 75, 75, 75, 75]
        = [4/3, 1, 1, 1, 1, 2/3, 1, 1, 1, 1, 1, 1] := by
      norm_num [normalizeVals]
    rw [h4, show scaffoldMonths = [1, 2, 3, 4, 5, 6, 7, 8, 9, 10, 11, 12] from rfl]
    norm_num

end RoomnlStats
